import Mathlib

/-!
# Verification of the per-request HTTP metrics instrumentation

Shallow embedding of the repository's HTTP client instrumentation
(`HttpRequestMetrics` and its helpers).  Pure helpers become Lean
functions; the event-driven metrics state machine becomes an explicit
state type `Ctx` with a `step` function over an inductive `Event` type,
and `run` folds a list of lifecycle events.  JavaScript `undefined` is
modelled with `Option`; JS truthiness of strings and numbers is modelled
explicitly; `process.hrtime()` pairs become `HrTime`; fractional
milliseconds become `ℚ`.
-/

namespace NewRelicHttp

/-- A `process.hrtime()` result: `[seconds, nanoseconds]`. -/
structure HrTime where
  sec : Nat
  ns : Nat
  deriving DecidableEq, Repr

/-- Total nanoseconds of an `HrTime`, as an integer. -/
def HrTime.toNanos (t : HrTime) : Int :=
  (t.sec : Int) * 1000000000 + (t.ns : Int)

/-- `getDurationInMs(startTime, endTime)` from the source: time delta
between two `process.hrtime()` results in fractional milliseconds,
`undefined` if either input is `undefined` (an hrtime array is always
truthy in JS, so the `!startTime || !endTime` test is exactly the
`undefined` test). -/
def getDurationInMs (startTime endTime : Option HrTime) : Option ℚ :=
  match startTime, endTime with
  | none, _ => none
  | _, none => none
  | some a, some b =>
    let deltaSec : Int := (b.sec : Int) - (a.sec : Int)
    let deltaNanos : Int := (b.ns : Int) - (a.ns : Int)
    some (((deltaSec * 1000000000 + deltaNanos : Int) : ℚ) / 1000000)

/-- The computed delta equals the nanosecond difference divided by 10^6. -/
theorem getDurationInMs_eq_toNanos (a b : HrTime) :
    getDurationInMs (some a) (some b) =
      some (((b.toNanos - a.toNanos : Int) : ℚ) / 1000000) := by
  simp only [getDurationInMs, HrTime.toNanos]
  congr 1
  push_cast
  ring_nf

/-! ## JS value helpers -/

/-- JS string-or-default: `opts.field || defaultValue` for string-valued
fields (`""` and `undefined` are falsy). -/
def strOr (o : Option String) (d : String) : String :=
  match o with
  | some s => if s = "" then d else s
  | none => d

/-- JS truthiness of an optional string. -/
def strTruthy (o : Option String) : Bool :=
  match o with
  | some s => s ≠ ""
  | none => false

/-- JS `a || b` for optional strings (keeps `b` optional). -/
def strOrOpt (a b : Option String) : Option String :=
  if strTruthy a then a else b

/-- A JS value that can sit in the `port`/`defaultPort` option slots:
a number, `NaN`, or a string. -/
inductive JsVal where
  | num (n : Int)
  | nan
  | str (s : String)
  deriving DecidableEq, Repr

/-- JS truthiness of an optional `JsVal` (`0`, `NaN`, `""`, `undefined`
are falsy). -/
def jsValTruthy (o : Option JsVal) : Bool :=
  match o with
  | none => false
  | some (.num n) => n ≠ 0
  | some .nan => false
  | some (.str s) => s ≠ ""

/-- JS `a || b` on option slots holding `JsVal`s. -/
def jsValOr (a : Option JsVal) (b : JsVal) : JsVal :=
  match a with
  | some v => if jsValTruthy (some v) then v else b
  | none => b

/-- Numeric value of a decimal digit list. -/
def digitsToNat (d : List Char) : Nat :=
  d.foldl (fun a c => a * 10 + (c.toNat - '0'.toNat)) 0

/-- JS `parseInt(s, 10)`: skip leading whitespace, optional sign, take
the longest decimal-digit prefix; `NaN` (here `none`) if there are no
digits. -/
def parseIntJS (s : String) : Option Int :=
  let cs := s.data.dropWhile (fun c => c = ' ' ∨ c = '\t' ∨ c = '\n' ∨ c = '\r')
  match cs with
  | '-' :: rest =>
    let d := rest.takeWhile Char.isDigit
    if d.isEmpty then none else some (-(digitsToNat d : Int))
  | '+' :: rest =>
    let d := rest.takeWhile Char.isDigit
    if d.isEmpty then none else some ((digitsToNat d : Int))
  | _ =>
    let d := cs.takeWhile Char.isDigit
    if d.isEmpty then none else some ((digitsToNat d : Int))

/-- JS `Number(s)` restricted to the strings a WHATWG URL `port`
property can hold (decimal digits): a digit string parses to its value,
anything else is `NaN`. -/
def jsNumberOfPort (s : String) : JsVal :=
  if s ≠ "" ∧ s.data.all Char.isDigit then .num (digitsToNat s.data : Int)
  else .nan

/-- ASCII `String.prototype.toUpperCase()`. -/
def jsToUpper (s : String) : String :=
  s.map Char.toUpper

/-- JS `array.slice(-2)`: the last two elements (whole list if shorter). -/
def sliceLastTwo (l : List String) : List String :=
  l.drop (l.length - 2)

/-- Does the character list start with the pattern?  (Executable model
of `String.prototype.startsWith` over the underlying characters.) -/
def startsWithL : List Char → List Char → Bool
  | _, [] => true
  | [], _ :: _ => false
  | c :: cs, d :: ds => c == d && startsWithL cs ds

/-- Does the character list contain the pattern anywhere? -/
def containsL (s pat : List Char) : Bool :=
  match s with
  | [] => startsWithL [] pat
  | _ :: rest => startsWithL s pat || containsL rest pat

/-! ## URL handling (`urlToOptions`, request options) -/

/-- The properties of a WHATWG `URL` object that `urlToOptions` reads.
All are strings (`port` is `""` when absent). -/
structure URLRec where
  protocol : String
  hostname : String
  port : String
  pathname : String
  search : String
  hash : String
  href : String
  username : String
  password : String
  deriving DecidableEq, Repr

/-- The request-options record consumed by `getRequestMetrics`. Each
field is `Option` because JS object fields may be absent. -/
structure HttpOptions where
  protocol : Option String := none
  hostname : Option String := none
  host : Option String := none
  port : Option JsVal := none
  defaultPort : Option JsVal := none
  path : Option String := none
  pathname : Option String := none
  search : Option String := none
  hash : Option String := none
  href : Option String := none
  auth : Option String := none
  deriving DecidableEq, Repr

/-- `urlToOptions(url)` from the source: convert a WHATWG `URL` object
to a request-options record.  IPv6 literals are bracket-stripped, the
`port` option is set only for a non-empty port string (via `Number`),
and credentials become an `auth` field.  For strings, `x || ''` is `x`,
so `path` is plain concatenation. -/
def urlToOptions (u : URLRec) : HttpOptions :=
  let base : HttpOptions :=
    { protocol := some u.protocol
      hostname := some (if startsWithL u.hostname.data "[".data then
          ((u.hostname.drop 1).dropRight 1) else u.hostname)
      hash := some u.hash
      search := some u.search
      pathname := some u.pathname
      path := some (u.pathname ++ u.search)
      href := some u.href }
  let withPort :=
    if u.port ≠ "" then { base with port := some (jsNumberOfPort u.port) }
    else base
  if u.username ≠ "" ∨ u.password ≠ "" then
    { withPort with auth := some (u.username ++ ":" ++ u.password) }
  else withPort

/-- The request-derived part of the metrics record. -/
structure ReqMetrics where
  protocol : String
  host : String
  port : Option Int
  path : String
  url : String
  method : String
  domain : String
  deriving DecidableEq, Repr

/-- String form of a JS number that may be `NaN`. -/
def jsNumToString (n : Option Int) : String :=
  match n with
  | some v => toString v
  | none => "NaN"

/-- `getRequestMetrics()` from the source, as a function of the stored
options and the request object's `method`.  Mirrors the JS line by line:
protocol falls back via `href`, host via `hostname || host || "localhost"`,
port via `port || defaultPort || (protocol-based default)` with a string
port run through `parseInt`, default ports 80/443 are left out of the
reconstructed URL, and the domain is the last two dot-separated host
labels. -/
def getRequestMetrics (opts : HttpOptions) (reqMethod : Option String) :
    ReqMetrics :=
  let protocol :=
    strOr opts.protocol
      (if strTruthy opts.href ∧ ((opts.href.getD "").startsWith "https:")
       then "https:" else "http:")
  let host := strOr opts.hostname (strOr opts.host "localhost")
  let portRaw : JsVal :=
    jsValOr opts.port (jsValOr opts.defaultPort
      (.num (if ¬ strTruthy opts.protocol ∨ opts.protocol = some "http:"
             then 80 else 443)))
  let port : Option Int :=
    match portRaw with
    | .num n => some n
    | .nan => none
    | .str s => parseIntJS s
  let portForUrl :=
    if (port = some 80 ∧ protocol = "http:") ∨
       (port = some 443 ∧ protocol = "https:") then ""
    else ":" ++ jsNumToString port
  let path := strOr opts.path "/"
  { protocol := protocol
    host := host
    port := port
    path := path
    url := protocol ++ "//" ++ host ++ portForUrl ++ path
    method := jsToUpper (strOr reqMethod "GET")
    domain := String.intercalate "." (sliceLastTwo (host.splitOn ".")) }

/-! ## The per-request metrics context -/

/-- The nine timestamp slots of `this.timings`. -/
structure Timings where
  startAt : Option HrTime
  socketAt : Option HrTime := none
  dnsLookupAt : Option HrTime := none
  tcpConnectionAt : Option HrTime := none
  tlsHandshakeAt : Option HrTime := none
  sentRequestAt : Option HrTime := none
  firstByteAt : Option HrTime := none
  endAt : Option HrTime := none
  errorAt : Option HrTime := none
  deriving DecidableEq, Repr

/-- JS `a || b` on optional hrtimes (an hrtime array is always truthy). -/
def orT (a b : Option HrTime) : Option HrTime :=
  match a with
  | some x => some x
  | none => b

/-- The timing-derived part of the metrics record
(`getTimingMetrics()` from the source, line by line). -/
structure TimingMetrics where
  duration : Option ℚ
  durationBlocked : Option ℚ
  durationDNS : Option ℚ
  durationConnect : Option ℚ
  durationSSL : Option ℚ
  durationSend : Option ℚ
  durationWait : Option ℚ
  durationReceive : Option ℚ
  deriving DecidableEq, Repr

/-- `getTimingMetrics()` from the source. -/
def getTimingMetrics (t : Timings) : TimingMetrics :=
  { duration := getDurationInMs t.startAt (orT t.errorAt t.endAt)
    durationBlocked := getDurationInMs t.startAt t.socketAt
    durationDNS := getDurationInMs t.socketAt t.dnsLookupAt
    durationConnect := getDurationInMs (orT t.dnsLookupAt t.socketAt) t.tcpConnectionAt
    durationSSL := getDurationInMs t.tcpConnectionAt t.tlsHandshakeAt
    durationSend := getDurationInMs (orT t.tlsHandshakeAt t.tcpConnectionAt) t.sentRequestAt
    durationWait := getDurationInMs (orT t.sentRequestAt (orT t.tlsHandshakeAt t.tcpConnectionAt)) t.firstByteAt
    durationReceive := getDurationInMs t.firstByteAt t.endAt }

/-- The response-object fields the instrumentation reads. -/
structure RespInfo where
  statusCode : Nat
  statusMessage : String
  contentLength : Option String := none
  contentType : Option String := none
  xRequestId : Option String := none
  xCorrelationId : Option String := none
  deriving DecidableEq, Repr

/-- A user-supplied JS function value (for the metrics callback slot).
`noop` is the `() => {}` installed when no callback is given. -/
inductive JsFun where
  | noop
  | user (id : Nat)
  deriving DecidableEq, Repr

/-- `withMetricsCallback(cb)` from the source: `this.metricsCallback =
cb || (() => {})` — a function value is always truthy, `undefined` is
falsy, so a missing callback is replaced by the no-op. -/
def withMetricsCallback (cb : Option JsFun) : JsFun :=
  match cb with
  | some f => f
  | none => .noop

/-- Calling a possibly-`undefined` JS function slot: calling `undefined`
raises a `TypeError`, calling any function value succeeds. -/
def callJsFun (f : Option JsFun) : Except String JsFun :=
  match f with
  | none => .error "TypeError: this.metricsCallback is not a function"
  | some g => .ok g

/-- The value of a `User-Agent` request header as `request.getHeader`
returns it: absent, a string, or an array of strings. -/
inductive UAVal where
  | str (s : String)
  | arr (l : List String)
  deriving DecidableEq, Repr

/-- Modelled from the spec: the transport/queue collaborator's
distinguishing `User-Agent` constant (`sendQueue.USER_AGENT`; the queue
module itself is not among the sources, which only say it exposes "a
distinguishing constant identifying its own outgoing requests"). -/
def USER_AGENT : String := "openwhisk-newrelic"

/-- `ignoreRequest()` from the source: the header value is truthy iff it
is a non-empty string or any array; a non-empty array is replaced by its
first element; the result is the strict equality test against the
distinguishing constant (an array is never `===` a string). -/
def ignoreRequest (ua : Option UAVal) : Bool :=
  match ua with
  | none => false
  | some (.str s) => if s = "" then false else s = USER_AGENT
  | some (.arr []) => false
  | some (.arr (x :: _)) => x = USER_AGENT

/-- The complete per-request mutable context (`HttpRequestMetrics`
instance state), plus the listener-registration facts that gate which
events can reach a handler (`observersAttached` for the request-level
listeners, `socketSeen` for the socket-level listeners registered in
`onSocket`, `response.isSome` for the response-level listeners,
`errorSeen` for the once-only error listener, `countingChunks` for the
conditional response `data` listener). -/
structure Ctx where
  timings : Timings
  httpOptions : HttpOptions
  reqMethod : Option String
  metricsCallback : Option JsFun
  requestBodySize : Option Nat
  responseSize : Option Int
  countingChunks : Bool
  serverRequestId : Option String
  response : Option RespInfo
  localAddress : Option String
  remoteAddress : Option String
  metricsTriggered : Bool
  timerArmed : Bool
  observersAttached : Bool
  socketSeen : Bool
  errorSeen : Bool
  deriving DecidableEq, Repr

/-- Context as built by the factory chain `new HttpRequestMetrics()
.withArgs(...).withMetricsCallback(cb).getRequest()`: the constructor
records `startAt`, `getRequest` normalizes the options, creates the
request, and attaches observers unless the request is self-generated
(`ignoreRequest`); `trackRequestBody` zeroes the request-body counter
when observers are attached. -/
def mkCtx (t0 : HrTime) (opts : HttpOptions) (reqMethod : Option String)
    (ua : Option UAVal) (cb : Option JsFun) : Ctx :=
  let attached := !ignoreRequest ua
  { timings := { startAt := some t0 }
    httpOptions := opts
    reqMethod := reqMethod
    metricsCallback := some (withMetricsCallback cb)
    requestBodySize := if attached then some 0 else none
    responseSize := none
    countingChunks := false
    serverRequestId := none
    response := none
    localAddress := none
    remoteAddress := none
    metricsTriggered := false
    timerArmed := false
    observersAttached := attached
    socketSeen := false
    errorSeen := false }

/-! ## Lifecycle events and the step function -/

/-- The lifecycle events the instrumentation listens for.  Every event
carries the `process.hrtime()` instant at which it fires (handlers that
do not read the clock simply ignore it). -/
inductive Event where
  | socket (t : HrTime)
  | lookup (t : HrTime)
  | connect (t : HrTime) (localAddr remoteAddr : String)
  | secureConnect (t : HrTime)
  | socketData (t : HrTime)
  | finish (t : HrTime)
  | reqWrite (t : HrTime) (chunkLen : Nat)
  | response (t : HrTime) (r : RespInfo)
  | respData (t : HrTime) (chunkLen : Nat)
  | respEnd (t : HrTime)
  | error (t : HrTime) (msg : String) (code : Option Int)
  | timeout (t : HrTime)
  | safetyNet (t : HrTime)
  deriving DecidableEq, Repr

/-- The instant at which an event fires. -/
def Event.time : Event → HrTime
  | .socket t => t
  | .lookup t => t
  | .connect t _ _ => t
  | .secureConnect t => t
  | .socketData t => t
  | .finish t => t
  | .reqWrite t _ => t
  | .response t _ => t
  | .respData t _ => t
  | .respEnd t => t
  | .error t _ _ => t
  | .timeout t => t
  | .safetyNet t => t

/-- The terminal-specific `extraMetrics` argument of `triggerMetrics`. -/
structure ExtraMetrics where
  requestBodySize : Option Nat := none
  responseBodySize : Option Int := none
  serverRequestId : Option String := none
  error : Option Bool := none
  errorMessage : Option String := none
  errorCode : Option Int := none
  deriving DecidableEq, Repr

/-- The response-derived part of the metrics record
(`getResponseMetrics()`: empty when no response has arrived). -/
structure RespMetrics where
  responseCode : Option Nat := none
  responseStatus : Option String := none
  contentType : Option String := none
  localIPAddress : Option String := none
  serverIPAddress : Option String := none
  deriving DecidableEq, Repr

/-- `getResponseMetrics()` from the source. -/
def getResponseMetrics (s : Ctx) : RespMetrics :=
  match s.response with
  | none => {}
  | some res =>
    { responseCode := some res.statusCode
      responseStatus := some res.statusMessage
      contentType := res.contentType
      localIPAddress := s.localAddress
      serverIPAddress := s.remoteAddress }

/-- The merged metrics record delivered to the callback: spread of
request metrics, response metrics, timing metrics and the
terminal-specific extras (their key sets are disjoint in the source). -/
structure MetricsRecord where
  req : ReqMetrics
  resp : RespMetrics
  timing : TimingMetrics
  extra : ExtraMetrics
  deriving DecidableEq, Repr

/-- One invocation of the metrics callback, with ghost snapshots of the
timer-armed flag and the timing record at the instant of the call. -/
structure Emission where
  record : MetricsRecord
  timerArmedAtCall : Bool
  timingsAtCall : Timings
  deriving DecidableEq, Repr

/-- `triggerMetrics(extraMetrics)` from the source: first the safety-net
timer is cleared (`clearTimeout`, unconditional and idempotent), then —
only if metrics were not yet triggered — the merged record is built and
the callback is invoked, and the `metricsTriggered` latch is set.  The
emission snapshots the state *after* the `clearTimeout` and *at* the
callback call, mirroring the statement order of the source. -/
def triggerMetrics (s : Ctx) (extra : ExtraMetrics) : Ctx × List Emission :=
  let s1 := { s with timerArmed := false }
  if s1.metricsTriggered then (s1, [])
  else
    ({ s1 with metricsTriggered := true },
     [{ record :=
          { req := getRequestMetrics s1.httpOptions s1.reqMethod
            resp := getResponseMetrics s1
            timing := getTimingMetrics s1.timings
            extra := extra }
        timerArmedAtCall := s1.timerArmed
        timingsAtCall := s1.timings }])

/-- `onEnd()` from the source: record `endAt`, then report with the
byte counters and correlation id. -/
def onEnd (s : Ctx) (t : HrTime) : Ctx × List Emission :=
  let s1 := { s with timings := { s.timings with endAt := some t } }
  triggerMetrics s1
    { requestBodySize := s1.requestBodySize
      responseBodySize := s1.responseSize
      serverRequestId := s1.serverRequestId }

/-- `onError(err)` from the source: record `errorAt`, then report with
the error flag, message and code. -/
def onError (s : Ctx) (t : HrTime) (msg : String) (code : Option Int) :
    Ctx × List Emission :=
  let s1 := { s with timings := { s.timings with errorAt := some t } }
  triggerMetrics s1
    { error := some true, errorMessage := some msg, errorCode := code }

/-- `onTimeout()` from the source: record `errorAt`, then report with a
fixed message and code 110 (`ETIMEDOUT`). -/
def onTimeout (s : Ctx) (t : HrTime) : Ctx × List Emission :=
  let s1 := { s with timings := { s.timings with errorAt := some t } }
  triggerMetrics s1
    { error := some true, errorMessage := some "Connection timed out"
      errorCode := some 110 }

/-- `onResponse(response)` from the source: store the response, read the
correlation header (`x-request-id || x-correlation-id`, JS `||`), seed
the response byte counter from `content-length` through `parseInt`, and
when the result is `NaN` (header absent or non-numeric) fall back to
counting streamed chunks from zero; register the `end` listener and
start the safety-net timer. -/
def onResponse (s : Ctx) (r : RespInfo) : Ctx :=
  let seeded : Option Int × Bool :=
    match r.contentLength with
    | none => (some 0, true)
    | some cl =>
      match parseIntJS cl with
      | none => (some 0, true)
      | some v => (some v, false)
  { s with
    response := some r
    serverRequestId := strOrOpt r.xRequestId r.xCorrelationId
    responseSize := seeded.1
    countingChunks := seeded.2
    timerArmed := true }

/-- One lifecycle event hitting the context.  When observers were never
attached (self-excluded request) there are no listeners, so every event
is a no-op.  Socket-level events need `onSocket` to have run
(`socketSeen`); response-level events need `onResponse` to have run;
the error listener is once-only; the response `data` listener exists
only when chunk counting is active; the safety-net timer can only fire
while armed. -/
def step (s : Ctx) (e : Event) : Ctx × List Emission :=
  if ¬ s.observersAttached then (s, [])
  else
    match e with
    | .socket t =>
      ({ s with timings := { s.timings with socketAt := some t }
                socketSeen := true }, [])
    | .lookup t =>
      if s.socketSeen then
        ({ s with timings := { s.timings with dnsLookupAt := some t } }, [])
      else (s, [])
    | .connect t la ra =>
      if s.socketSeen then
        ({ s with
           timings := { s.timings with tcpConnectionAt := some t
                                       sentRequestAt := none }
           localAddress := some la
           remoteAddress := some ra }, [])
      else (s, [])
    | .secureConnect t =>
      if s.socketSeen then
        ({ s with timings := { s.timings with tlsHandshakeAt := some t } }, [])
      else (s, [])
    | .socketData t =>
      if s.socketSeen ∧ s.timings.firstByteAt = none then
        ({ s with timings := { s.timings with firstByteAt := some t } }, [])
      else (s, [])
    | .finish t =>
      ({ s with timings := { s.timings with sentRequestAt := some t } }, [])
    | .reqWrite _ n =>
      ({ s with requestBodySize := (s.requestBodySize.getD 0) + n |> some }, [])
    | .response _ r => (onResponse s r, [])
    | .respData _ n =>
      if s.response.isSome ∧ s.countingChunks then
        ({ s with responseSize := some ((s.responseSize.getD 0) + (n : Int)) }, [])
      else (s, [])
    | .respEnd t =>
      if s.response.isSome then onEnd s t else (s, [])
    | .error t msg code =>
      if s.errorSeen then (s, [])
      else
        let (s1, ems) := onError { s with errorSeen := true } t msg code
        (s1, ems)
    | .timeout t => onTimeout s t
    | .safetyNet t =>
      if s.timerArmed then onEnd s t else (s, [])

/-- Fold a list of lifecycle events over the context, collecting every
callback invocation in order. -/
def run (s : Ctx) : List Event → Ctx × List Emission
  | [] => (s, [])
  | e :: rest =>
    let p := step s e
    let q := run p.1 rest
    (q.1, p.2 ++ q.2)

/-! ## Structural lemmas about `step` and `run` -/

theorem run_append (s : Ctx) (a b : List Event) :
    run s (a ++ b) =
      ((run (run s a).1 b).1, (run s a).2 ++ (run (run s a).1 b).2) := by
  induction a generalizing s with
  | nil => simp [run]
  | cons e r ih => simp [run, ih, List.append_assoc]

theorem step_unattached (s : Ctx) (e : Event)
    (h : s.observersAttached = false) : step s e = (s, []) := by
  simp [step, h]

theorem run_unattached (s : Ctx) (l : List Event)
    (h : s.observersAttached = false) : run s l = (s, []) := by
  induction l with
  | nil => simp [run]
  | cons e r ih => simp [run, step_unattached s e h, ih]

theorem triggerMetrics_fst_trig (s : Ctx) (x : ExtraMetrics) :
    (triggerMetrics s x).1.metricsTriggered = true := by
  simp only [triggerMetrics]
  split <;> simp_all

theorem triggerMetrics_len (s : Ctx) (x : ExtraMetrics) :
    (triggerMetrics s x).2.length = if s.metricsTriggered then 0 else 1 := by
  simp only [triggerMetrics]
  split <;> simp_all

theorem onEnd_fst_trig (s : Ctx) (t : HrTime) :
    (onEnd s t).1.metricsTriggered = true := triggerMetrics_fst_trig _ _

theorem onError_fst_trig (s : Ctx) (t : HrTime) (m : String) (c : Option Int) :
    (onError s t m c).1.metricsTriggered = true := triggerMetrics_fst_trig _ _

theorem onTimeout_fst_trig (s : Ctx) (t : HrTime) :
    (onTimeout s t).1.metricsTriggered = true := triggerMetrics_fst_trig _ _

theorem step_trig_mono (s : Ctx) (e : Event)
    (h : s.metricsTriggered = true) : (step s e).1.metricsTriggered = true := by
  by_cases ha : s.observersAttached
  · cases e <;>
      simp [step, ha, onResponse, onEnd, onError, onTimeout,
        triggerMetrics_fst_trig] <;> (try split) <;>
      simp_all [onEnd, onError, triggerMetrics_fst_trig]
  · simp [step, ha, h]

theorem step_count (s : Ctx) (e : Event) :
    (step s e).2.length =
      if s.metricsTriggered = false ∧ (step s e).1.metricsTriggered = true
      then 1 else 0 := by
  by_cases ha : s.observersAttached
  · cases e <;>
      simp [step, ha, onResponse, onEnd, onError, onTimeout,
        triggerMetrics_fst_trig, triggerMetrics_len] <;>
      (try split) <;>
      simp_all [onEnd, onError, onTimeout, triggerMetrics_fst_trig,
        triggerMetrics_len] <;>
      (cases hm : s.metricsTriggered <;> simp [hm])
  · simp [step, ha]

theorem run_trig_mono (s : Ctx) (l : List Event)
    (h : s.metricsTriggered = true) : (run s l).1.metricsTriggered = true := by
  induction l generalizing s with
  | nil => simpa [run] using h
  | cons e r ih => simpa [run] using ih _ (step_trig_mono s e h)

/-- The single-use latch: the number of callback invocations over a run
is `1` exactly when the run crossed the `metricsTriggered` transition,
and `0` otherwise. -/
theorem run_count (s : Ctx) (l : List Event) :
    (run s l).2.length =
      if s.metricsTriggered = false ∧ (run s l).1.metricsTriggered = true
      then 1 else 0 := by
  induction l generalizing s with
  | nil => simp [run]
  | cons e r ih =>
    have hstep := step_count s e
    have hrest := ih (step s e).1
    have hrun : (run s (e :: r)).2.length =
        (step s e).2.length + (run (step s e).1 r).2.length := by
      simp [run]
    have hfst : (run s (e :: r)).1 = (run (step s e).1 r).1 := by
      simp [run]
    rw [hrun, hfst, hstep, hrest]
    by_cases h0 : s.metricsTriggered
    · have h1 := step_trig_mono s e h0
      have h2 := run_trig_mono (step s e).1 r h1
      simp [h0, h1, h2]
    · by_cases h1 : (step s e).1.metricsTriggered
      · have h2 := run_trig_mono (step s e).1 r h1
        simp [h0, h1, h2]
      · simp [h0, h1]

theorem step_attached (s : Ctx) (e : Event) :
    (step s e).1.observersAttached = s.observersAttached := by
  by_cases ha : s.observersAttached
  · cases e <;>
      simp [step, ha, onResponse, onEnd, onError, onTimeout, triggerMetrics] <;>
      (try split) <;> (try split) <;> simp_all
  · simp [step, ha]

theorem run_attached (s : Ctx) (l : List Event) :
    (run s l).1.observersAttached = s.observersAttached := by
  induction l generalizing s with
  | nil => simp [run]
  | cons e r ih => simp [run, ih, step_attached]

theorem step_response_mono (s : Ctx) (e : Event)
    (h : s.response.isSome = true) : (step s e).1.response.isSome = true := by
  by_cases ha : s.observersAttached
  · cases e <;>
      simp [step, ha, onResponse, onEnd, onError, onTimeout, triggerMetrics] <;>
      (try split) <;> (try split) <;> simp_all
  · simp [step, ha, h]

theorem run_response_mono (s : Ctx) (l : List Event)
    (h : s.response.isSome = true) : (run s l).1.response.isSome = true := by
  induction l generalizing s with
  | nil => simpa [run] using h
  | cons e r ih => simpa [run] using ih _ (step_response_mono s e h)

/-- Reachability invariant feeding the exactly-once argument: a consumed
error listener means metrics were already triggered, and once a response
has arrived the safety-net timer is armed unless reporting already
happened. -/
def Reach (s : Ctx) : Prop :=
  (s.errorSeen = true → s.metricsTriggered = true) ∧
  (s.response.isSome = true → (s.timerArmed = true ∨ s.metricsTriggered = true))

theorem step_reach (s : Ctx) (e : Event) (h : Reach s) : Reach (step s e).1 := by
  obtain ⟨h1, h2⟩ := h
  by_cases ha : s.observersAttached
  · cases e <;>
      simp [step, ha, Reach, onResponse, onEnd, onError, onTimeout,
        triggerMetrics] <;>
      (try split) <;> (try split) <;> simp_all [Reach]
  · simpa [step, ha, Reach] using ⟨h1, h2⟩

theorem run_reach (s : Ctx) (l : List Event) (h : Reach s) :
    Reach (run s l).1 := by
  induction l generalizing s with
  | nil => simpa [run] using h
  | cons e r ih => simpa [run] using ih _ (step_reach s e h)

/-- A terminal-signal event: one whose listener (when registered and
still live) unconditionally records a terminal timestamp and reports. -/
def isHardTerminal : Event → Bool
  | .error _ _ _ => true
  | .timeout _ => true
  | _ => false

/-- A response-stream terminal signal: effective once a response has
arrived (registered the `end` listener and armed the safety net). -/
def isRespTerminal : Event → Bool
  | .respEnd _ => true
  | .safetyNet _ => true
  | _ => false

/-- An event sequence that reaches a terminal state: it contains an
error or timeout signal, or a response followed later by a response-end
or safety-net firing. -/
def TerminalSeq (l : List Event) : Prop :=
  (∃ e ∈ l, isHardTerminal e = true) ∨
  (∃ l1 t r l2 e l3, l = l1 ++ Event.response t r :: (l2 ++ e :: l3) ∧
    isRespTerminal e = true)

theorem step_hard_trig (s : Ctx) (e : Event) (ha : s.observersAttached = true)
    (hr : Reach s) (he : isHardTerminal e = true) :
    (step s e).1.metricsTriggered = true := by
  obtain ⟨h1, _⟩ := hr
  cases e <;> simp [isHardTerminal] at he <;>
    simp [step, ha, onError_fst_trig, onTimeout_fst_trig]
  case error t msg code =>
    split
    · exact h1 (by assumption)
    · exact onError_fst_trig _ _ _ _

theorem step_resp_trig (s : Ctx) (e : Event) (ha : s.observersAttached = true)
    (hr : Reach s) (hresp : s.response.isSome = true)
    (he : isRespTerminal e = true) :
    (step s e).1.metricsTriggered = true := by
  obtain ⟨_, h2⟩ := hr
  cases e <;> simp [isRespTerminal] at he
  case respEnd t => simp [step, ha, hresp, onEnd_fst_trig]
  case safetyNet t =>
    rcases h2 hresp with harm | htrig
    · simp [step, ha, harm, onEnd_fst_trig]
    · by_cases harm2 : s.timerArmed
      · simp [step, ha, harm2, onEnd_fst_trig]
      · simpa [step, ha, harm2] using htrig

theorem run_terminal_trig (s : Ctx) (l : List Event)
    (ha : s.observersAttached = true) (hr : Reach s) (ht : TerminalSeq l) :
    (run s l).1.metricsTriggered = true := by
  rcases ht with ⟨e, hmem, he⟩ | ⟨l1, t, r, l2, e, l3, hl, he⟩
  · obtain ⟨l1, l2, rfl⟩ := List.append_of_mem hmem
    rw [run_append]
    have ha1 : (run s l1).1.observersAttached = true := by
      rw [run_attached]; exact ha
    have hr1 : Reach (run s l1).1 := run_reach s l1 hr
    have : (run (run s l1).1 (e :: l2)).1 =
        (run (step (run s l1).1 e).1 l2).1 := by simp [run]
    rw [this]
    apply run_trig_mono
    exact step_hard_trig _ e ha1 hr1 he
  · subst hl
    rw [run_append]
    set s1 := (run s l1).1 with hs1
    have ha1 : s1.observersAttached = true := by
      rw [hs1, run_attached]; exact ha
    have hr1 : Reach s1 := run_reach s l1 hr
    have hrun : (run s1 (Event.response t r :: (l2 ++ e :: l3))).1 =
        (run (step s1 (Event.response t r)).1 (l2 ++ e :: l3)).1 := by
      simp [run]
    rw [hrun]
    set s2 := (step s1 (Event.response t r)).1 with hs2
    have ha2 : s2.observersAttached = true := by
      rw [hs2, step_attached]; exact ha1
    have hr2 : Reach s2 := step_reach s1 _ hr1
    have hresp2 : s2.response.isSome = true := by
      simp [hs2, step, ha1, onResponse]
    rw [run_append]
    set s3 := (run s2 l2).1 with hs3
    have ha3 : s3.observersAttached = true := by
      rw [hs3, run_attached]; exact ha2
    have hr3 : Reach s3 := run_reach s2 l2 hr2
    have hresp3 : s3.response.isSome = true := run_response_mono s2 l2 hresp2
    have : (run s3 (e :: l3)).1 = (run (step s3 e).1 l3).1 := by simp [run]
    rw [this]
    apply run_trig_mono
    exact step_resp_trig s3 e ha3 hr3 hresp3 he

/-! ## Claim C1: the callback fires exactly once -/

/-- C1: For every outgoing instrumented request and every sequence of
terminal lifecycle signals (response end, request error, request
timeout, safety-net timer firing), the configured metrics callback is
invoked exactly once for that request's context, even when several
terminal signals occur one after another: over any event sequence the
callback fires at most once, and over any sequence reaching a terminal
state it fires exactly once. -/
theorem metrics_callback_exactly_once (t0 : HrTime) (opts : HttpOptions)
    (m : Option String) (ua : Option UAVal) (cb : Option JsFun)
    (l : List Event) (hua : ignoreRequest ua = false) :
    (run (mkCtx t0 opts m ua cb) l).2.length ≤ 1 ∧
    (TerminalSeq l → (run (mkCtx t0 opts m ua cb) l).2.length = 1) := by
  have hinit : (mkCtx t0 opts m ua cb).metricsTriggered = false := rfl
  have hatt : (mkCtx t0 opts m ua cb).observersAttached = true := by
    simp [mkCtx, hua]
  have hreach : Reach (mkCtx t0 opts m ua cb) := by
    constructor <;> simp [mkCtx]
  constructor
  · rw [run_count]
    split <;> simp
  · intro ht
    rw [run_count]
    have htrig := run_terminal_trig _ l hatt hreach ht
    simp [hinit, htrig]

theorem metrics_callback_exactly_once_witness :
    ignoreRequest (none : Option UAVal) = false ∧
    (run (mkCtx ⟨0, 0⟩ {} none none none)
      [Event.timeout ⟨1, 0⟩, Event.error ⟨2, 0⟩ "boom" none]).2.length = 1 :=
  ⟨rfl,
   (metrics_callback_exactly_once ⟨0, 0⟩ {} none none none
      [Event.timeout ⟨1, 0⟩, Event.error ⟨2, 0⟩ "boom" none] rfl).2
     (Or.inl ⟨Event.timeout ⟨1, 0⟩, by decide, rfl⟩)⟩

/-! ## Claim C6: safety-net timer cancelled before the callback -/

theorem triggerMetrics_timer_at_call (s : Ctx) (x : ExtraMetrics) :
    ∀ em ∈ (triggerMetrics s x).2, em.timerArmedAtCall = false := by
  simp only [triggerMetrics]
  split <;> simp

theorem step_timer_at_call (s : Ctx) (e : Event) :
    ∀ em ∈ (step s e).2, em.timerArmedAtCall = false := by
  by_cases ha : s.observersAttached
  · cases e <;>
      simp [step, ha, onResponse, onEnd, onError, onTimeout] <;>
      (try split) <;>
      (try simp_all [onEnd, onError, onTimeout]) <;>
      (try (intro em hm; exact triggerMetrics_timer_at_call _ _ em hm))
  · simp [step, ha]

/-- C6: On every terminal path (response end, error, timeout, or
safety-net firing), the pending safety-net timer is cancelled before the
metrics callback is invoked; the callback never runs while the timer is
still armed: every emission of every run snapshots a disarmed timer at
the instant of the callback call (`triggerMetrics` runs `clearTimeout`
unconditionally before consulting the `metricsTriggered` latch). -/
theorem timer_cancelled_before_callback (s : Ctx) (l : List Event) :
    ((run s l).2.all fun em => !em.timerArmedAtCall) = true := by
  induction l generalizing s with
  | nil => simp [run]
  | cons e r ih =>
    simp only [run, List.all_append, Bool.and_eq_true]
    refine ⟨?_, ih _⟩
    rw [List.all_eq_true]
    intro em hm
    simp [step_timer_at_call s e em hm]

/-! ## Claim C5: terminal timestamp slots -/

theorem step_startAt (s : Ctx) (e : Event) :
    (step s e).1.timings.startAt = s.timings.startAt := by
  by_cases ha : s.observersAttached
  · cases e <;>
      simp [step, ha, onResponse, onEnd, onError, onTimeout, triggerMetrics] <;>
      (try split) <;> (try split) <;> simp_all
  · simp [step, ha]

theorem run_startAt (s : Ctx) (l : List Event) :
    (run s l).1.timings.startAt = s.timings.startAt := by
  induction l generalizing s with
  | nil => simp [run]
  | cons e r ih => simp [run, ih, step_startAt]

theorem step_slots (s : Ctx) (e : Event)
    (h : s.metricsTriggered = false →
      s.timings.endAt = none ∧ s.timings.errorAt = none) :
    (∀ em ∈ (step s e).2,
      (em.timingsAtCall.endAt.isSome && em.timingsAtCall.errorAt.isSome)
        = false) ∧
    ((step s e).1.metricsTriggered = false →
      (step s e).1.timings.endAt = none ∧
      (step s e).1.timings.errorAt = none) := by
  by_cases ha : s.observersAttached
  · rcases Bool.eq_false_or_eq_true s.metricsTriggered with h0 | h0
    · cases e <;>
        simp [step, ha, h0, onResponse, onEnd, onError, onTimeout,
          triggerMetrics] <;>
        (try split) <;> simp_all
    · obtain ⟨he, hr⟩ := h h0
      cases e <;>
        simp [step, ha, h0, he, hr, onResponse, onEnd, onError, onTimeout,
          triggerMetrics] <;>
        (try split) <;> simp_all
  · simpa [step, ha] using h

theorem run_slots (s : Ctx) (l : List Event)
    (h : s.metricsTriggered = false →
      s.timings.endAt = none ∧ s.timings.errorAt = none) :
    ∀ em ∈ (run s l).2,
      (em.timingsAtCall.endAt.isSome && em.timingsAtCall.errorAt.isSome)
        = false := by
  induction l generalizing s with
  | nil => simp [run]
  | cons e r ih =>
    intro em hm
    simp only [run, List.mem_append] at hm
    rcases hm with hm | hm
    · exact (step_slots s e h).1 em hm
    · exact ih _ (step_slots s e h).2 em hm

/-- C5 counterexample: after a clean response end, a late request error
still writes the `errorAt` slot (the source's `onError` records the
timestamp unconditionally), so both terminal slots end up set, refuting
the claim that at most one of them is ever set over every sequence of
lifecycle events. -/
theorem terminal_slots_counterexample :
    ((run (mkCtx ⟨0, 0⟩ {} none none none)
        [Event.response ⟨1, 0⟩ ⟨200, "OK", none, none, none, none⟩,
         Event.respEnd ⟨2, 0⟩,
         Event.error ⟨3, 0⟩ "late" none]).1.timings.endAt).isSome = true ∧
    ((run (mkCtx ⟨0, 0⟩ {} none none none)
        [Event.response ⟨1, 0⟩ ⟨200, "OK", none, none, none, none⟩,
         Event.respEnd ⟨2, 0⟩,
         Event.error ⟨3, 0⟩ "late" none]).1.timings.errorAt).isSome = true := by
  decide

/-- C5 amended: at the moment the metrics callback is invoked, at most
one of the two terminal timestamp slots (response-ended and errored) is
set — a terminal signal arriving after reporting may still set the other
slot, but never reaches the callback; and the start timestamp is set at
construction and never overwritten. -/
theorem terminal_slots_amended (t0 : HrTime) (opts : HttpOptions)
    (m : Option String) (ua : Option UAVal) (cb : Option JsFun)
    (l : List Event) :
    (∀ em ∈ (run (mkCtx t0 opts m ua cb) l).2,
      (em.timingsAtCall.endAt.isSome && em.timingsAtCall.errorAt.isSome)
        = false) ∧
    (run (mkCtx t0 opts m ua cb) l).1.timings.startAt = some t0 := by
  constructor
  · exact run_slots _ l (fun _ => ⟨rfl, rfl⟩)
  · rw [run_startAt]; rfl

/-! ## Claim C4: `durationSend` and the connect-after-finish guard -/

/-- Is this event a TLS-handshake completion signal? -/
def isSecureConnectE : Event → Bool
  | .secureConnect _ => true
  | _ => false

/-- Is this event a request-finished signal? -/
def isFinishE : Event → Bool
  | .finish _ => true
  | _ => false

/-- No TLS-handshake completion signal anywhere in the sequence. -/
def noSecureConnect (l : List Event) : Bool :=
  l.all fun e => !isSecureConnectE e

/-- No TLS-handshake completion signal fires after a request-finished
signal (the natural causal order: the request body is flushed only after
the handshake). -/
def noSCAfterFinish : List Event → Bool
  | [] => true
  | e :: r => ((!isFinishE e) || noSecureConnect r) && noSCAfterFinish r

/-- The events of a sequence fire at non-decreasing instants (the
monotonic clock). -/
def TimesMono (l : List Event) : Prop :=
  List.Pairwise (fun a b => a.time.toNanos ≤ b.time.toNanos) l

instance decTimesMono (l : List Event) : Decidable (TimesMono l) := by
  unfold TimesMono
  infer_instance

/-- Inductive invariant for the `durationSend` bound: the connect and
handshake timestamps precede every remaining event, and whenever the
sent timestamp is set it postdates both (and no handshake signal
remains, which is what keeps it that way). -/
def SendInv (s : Ctx) (l : List Event) : Prop :=
  (∀ x, s.timings.tcpConnectionAt = some x →
    ∀ e ∈ l, x.toNanos ≤ e.time.toNanos) ∧
  (∀ x, s.timings.tlsHandshakeAt = some x →
    ∀ e ∈ l, x.toNanos ≤ e.time.toNanos) ∧
  (∀ x, s.timings.sentRequestAt = some x →
    (∀ y, s.timings.tlsHandshakeAt = some y → y.toNanos ≤ x.toNanos) ∧
    (∀ y, s.timings.tcpConnectionAt = some y → y.toNanos ≤ x.toNanos) ∧
    noSecureConnect l = true)

theorem sendInv_weaken (s : Ctx) (e : Event) (r : List Event)
    (h : SendInv s (e :: r)) : SendInv s r := by
  obtain ⟨h1, h2, h3⟩ := h
  refine ⟨fun x hx e2 he2 => h1 x hx e2 (List.mem_cons_of_mem _ he2),
          fun x hx e2 he2 => h2 x hx e2 (List.mem_cons_of_mem _ he2),
          fun x hx => ?_⟩
  obtain ⟨a, b, c⟩ := h3 x hx
  refine ⟨a, b, ?_⟩
  simp only [noSecureConnect, List.all_cons, Bool.and_eq_true] at c
  exact c.2

theorem sendInv_transfer (s2 s : Ctx) (r : List Event)
    (f1 : s2.timings.tcpConnectionAt = s.timings.tcpConnectionAt)
    (f2 : s2.timings.tlsHandshakeAt = s.timings.tlsHandshakeAt)
    (f3 : s2.timings.sentRequestAt = s.timings.sentRequestAt)
    (h : SendInv s r) : SendInv s2 r := by
  obtain ⟨h1, h2, h3⟩ := h
  refine ⟨fun x hx => h1 x (f1.symm.trans hx),
          fun x hx => h2 x (f2.symm.trans hx),
          fun x hx => ?_⟩
  obtain ⟨a, b, c⟩ := h3 x (f3.symm.trans hx)
  exact ⟨fun y hy => a y (f2.symm.trans hy),
         fun y hy => b y (f1.symm.trans hy), c⟩

theorem step_sendInv (s : Ctx) (e : Event) (r : List Event)
    (hmono : TimesMono (e :: r)) (hsc : noSCAfterFinish (e :: r) = true)
    (hinv : SendInv s (e :: r)) : SendInv (step s e).1 r := by
  have hweak : SendInv s r := sendInv_weaken s e r hinv
  obtain ⟨h1, h2, h3⟩ := hinv
  have hhead : ∀ e2 ∈ r, e.time.toNanos ≤ e2.time.toNanos :=
    (List.pairwise_cons.mp hmono).1
  by_cases ha : s.observersAttached
  · cases e with
    | connect t la ra =>
      by_cases hs : s.socketSeen
      · have f1 : (step s (.connect t la ra)).1.timings.tcpConnectionAt
            = some t := by simp [step, ha, hs]
        have f2 : (step s (.connect t la ra)).1.timings.tlsHandshakeAt
            = s.timings.tlsHandshakeAt := by simp [step, ha, hs]
        have f3 : (step s (.connect t la ra)).1.timings.sentRequestAt
            = none := by simp [step, ha, hs]
        refine ⟨?_, ?_, ?_⟩
        · intro x hx e2 he2
          rw [f1] at hx
          injection hx with hx
          subst hx
          simpa [Event.time] using hhead e2 he2
        · intro x hx e2 he2
          exact hweak.2.1 x (f2.symm.trans hx) e2 he2
        · intro x hx
          rw [f3] at hx
          cases hx
      · exact sendInv_transfer _ s r (by simp [step, ha, hs])
          (by simp [step, ha, hs]) (by simp [step, ha, hs]) hweak
    | secureConnect t =>
      by_cases hs : s.socketSeen
      · have hsent : s.timings.sentRequestAt = none := by
          cases hx : s.timings.sentRequestAt with
          | none => rfl
          | some x =>
            exfalso
            have := (h3 x hx).2.2
            simp [noSecureConnect, isSecureConnectE] at this
        have f1 : (step s (.secureConnect t)).1.timings.tcpConnectionAt
            = s.timings.tcpConnectionAt := by simp [step, ha, hs]
        have f2 : (step s (.secureConnect t)).1.timings.tlsHandshakeAt
            = some t := by simp [step, ha, hs]
        have f3 : (step s (.secureConnect t)).1.timings.sentRequestAt
            = s.timings.sentRequestAt := by simp [step, ha, hs]
        refine ⟨?_, ?_, ?_⟩
        · intro x hx e2 he2
          exact hweak.1 x (f1.symm.trans hx) e2 he2
        · intro x hx e2 he2
          rw [f2] at hx
          injection hx with hx
          subst hx
          simpa [Event.time] using hhead e2 he2
        · intro x hx
          rw [f3, hsent] at hx
          cases hx
      · exact sendInv_transfer _ s r (by simp [step, ha, hs])
          (by simp [step, ha, hs]) (by simp [step, ha, hs]) hweak
    | finish t =>
      have hnr : noSecureConnect r = true := by
        simp only [noSCAfterFinish, isFinishE, Bool.not_true, Bool.false_or,
          Bool.and_eq_true] at hsc
        exact hsc.1
      have f1 : (step s (.finish t)).1.timings.tcpConnectionAt
          = s.timings.tcpConnectionAt := by simp [step, ha]
      have f2 : (step s (.finish t)).1.timings.tlsHandshakeAt
          = s.timings.tlsHandshakeAt := by simp [step, ha]
      have f3 : (step s (.finish t)).1.timings.sentRequestAt
          = some t := by simp [step, ha]
      refine ⟨?_, ?_, ?_⟩
      · intro x hx e2 he2
        exact hweak.1 x (f1.symm.trans hx) e2 he2
      · intro x hx e2 he2
        exact hweak.2.1 x (f2.symm.trans hx) e2 he2
      · intro x hx
        rw [f3] at hx
        injection hx with hx
        subst hx
        refine ⟨fun y hy => ?_, fun y hy => ?_, hnr⟩
        · simpa [Event.time] using
            h2 y (f2.symm.trans hy) _ (List.mem_cons_self _ _)
        · simpa [Event.time] using
            h1 y (f1.symm.trans hy) _ (List.mem_cons_self _ _)
    | socket t =>
      exact sendInv_transfer _ s r (by simp [step, ha])
        (by simp [step, ha]) (by simp [step, ha]) hweak
    | lookup t =>
      exact sendInv_transfer _ s r
        (by by_cases hs : s.socketSeen <;> simp [step, ha, hs])
        (by by_cases hs : s.socketSeen <;> simp [step, ha, hs])
        (by by_cases hs : s.socketSeen <;> simp [step, ha, hs]) hweak
    | socketData t =>
      exact sendInv_transfer _ s r
        (by by_cases hs : s.socketSeen ∧ s.timings.firstByteAt = none <;>
          simp [step, ha, hs])
        (by by_cases hs : s.socketSeen ∧ s.timings.firstByteAt = none <;>
          simp [step, ha, hs])
        (by by_cases hs : s.socketSeen ∧ s.timings.firstByteAt = none <;>
          simp [step, ha, hs]) hweak
    | reqWrite t n =>
      exact sendInv_transfer _ s r (by simp [step, ha])
        (by simp [step, ha]) (by simp [step, ha]) hweak
    | response t rr =>
      exact sendInv_transfer _ s r (by simp [step, ha, onResponse])
        (by simp [step, ha, onResponse]) (by simp [step, ha, onResponse])
        hweak
    | respData t n =>
      exact sendInv_transfer _ s r
        (by by_cases hs : s.response.isSome ∧ s.countingChunks <;>
          simp [step, ha, hs])
        (by by_cases hs : s.response.isSome ∧ s.countingChunks <;>
          simp [step, ha, hs])
        (by by_cases hs : s.response.isSome ∧ s.countingChunks <;>
          simp [step, ha, hs]) hweak
    | respEnd t =>
      refine sendInv_transfer _ s r ?_ ?_ ?_ hweak <;>
        (by_cases hs : s.response.isSome <;>
          [(simp only [step, ha, hs, onEnd, triggerMetrics];
            simp; split <;> rfl);
           simp [step, ha, hs]])
    | error t msg code =>
      refine sendInv_transfer _ s r ?_ ?_ ?_ hweak <;>
        (by_cases hs : s.errorSeen <;>
          [simp [step, ha, hs];
           (simp only [step, ha, hs, onError, triggerMetrics];
            simp; split <;> rfl)])
    | timeout t =>
      refine sendInv_transfer _ s r ?_ ?_ ?_ hweak <;>
        (simp only [step, ha, onTimeout, triggerMetrics];
          simp; split <;> rfl)
    | safetyNet t =>
      refine sendInv_transfer _ s r ?_ ?_ ?_ hweak <;>
        (by_cases hs : s.timerArmed <;>
          [(simp only [step, ha, hs, onEnd, triggerMetrics];
            simp; split <;> rfl);
           simp [step, ha, hs]])
  · exact sendInv_transfer _ s r (by simp [step_unattached s _ (by simpa using ha)])
      (by simp [step_unattached s _ (by simpa using ha)])
      (by simp [step_unattached s _ (by simpa using ha)]) hweak

theorem step_dsend (s : Ctx) (e : Event) :
    ∀ em ∈ (step s e).2,
      em.record.timing.durationSend =
        getDurationInMs
          (orT s.timings.tlsHandshakeAt s.timings.tcpConnectionAt)
          s.timings.sentRequestAt := by
  by_cases ha : s.observersAttached
  · cases e <;>
      simp [step, ha, onResponse, onEnd, onError, onTimeout,
        triggerMetrics, getTimingMetrics] <;>
      (try split) <;> (try split) <;>
      simp_all [onEnd, onError, onTimeout, triggerMetrics, getTimingMetrics]
  · simp [step, ha]

theorem dsend_ok_of_bounds (tls tcp sent : Option HrTime)
    (h : ∀ x, sent = some x →
      (∀ y, tls = some y → y.toNanos ≤ x.toNanos) ∧
      (∀ y, tcp = some y → y.toNanos ≤ x.toNanos)) :
    getDurationInMs (orT tls tcp) sent = none ∨
    ∃ q, getDurationInMs (orT tls tcp) sent = some q ∧ 0 ≤ q := by
  cases hsent : sent with
  | none => left; cases orT tls tcp <;> simp [getDurationInMs]
  | some x =>
    obtain ⟨htls, htcp⟩ := h x hsent
    cases htl : tls with
    | some y =>
      right
      refine ⟨((x.toNanos - y.toNanos : Int) : ℚ) / 1000000, ?_, ?_⟩
      · simp [orT, getDurationInMs_eq_toNanos]
      · have hy := htls y htl
        have hnum : (0 : ℚ) ≤ ((x.toNanos - y.toNanos : Int) : ℚ) := by
          exact_mod_cast sub_nonneg.mpr hy
        exact div_nonneg hnum (by norm_num)
    | none =>
      cases htc : tcp with
      | some y =>
        right
        refine ⟨((x.toNanos - y.toNanos : Int) : ℚ) / 1000000, ?_, ?_⟩
        · simp [orT, getDurationInMs_eq_toNanos]
        · have hy := htcp y htc
          have hnum : (0 : ℚ) ≤ ((x.toNanos - y.toNanos : Int) : ℚ) := by
            exact_mod_cast sub_nonneg.mpr hy
          exact div_nonneg hnum (by norm_num)
      | none =>
        left
        simp [orT, getDurationInMs]

theorem run_dsend_nonneg (l : List Event) (s : Ctx) (hmono : TimesMono l)
    (hsc : noSCAfterFinish l = true) (hinv : SendInv s l) :
    ∀ em ∈ (run s l).2,
      em.record.timing.durationSend = none ∨
      ∃ q, em.record.timing.durationSend = some q ∧ 0 ≤ q := by
  induction l generalizing s with
  | nil => simp [run]
  | cons e r ih =>
    intro em hm
    simp only [run, List.mem_append] at hm
    rcases hm with hm | hm
    · rw [step_dsend s e em hm]
      exact dsend_ok_of_bounds _ _ _ (fun x hx =>
        ⟨(hinv.2.2 x hx).1, (hinv.2.2 x hx).2.1⟩)
    · have hmono2 : TimesMono r := (List.pairwise_cons.mp hmono).2
      have hsc2 : noSCAfterFinish r = true := by
        simp only [noSCAfterFinish, Bool.and_eq_true] at hsc
        exact hsc.2
      exact ih (step s e).1 hmono2 hsc2 (step_sendInv s e r hmono hsc hinv) em hm

/-- C4 counterexample: with the TLS-handshake completion signal firing
after the request-finished signal (connect, then finish, then
secureConnect), the reported `durationSend` is `-1000` ms — negative —
because the source clears the sent timestamp only on the TCP-connect
signal, not on the TLS one, refuting the claim for arbitrary event
sequences. -/
theorem durationSend_negative_counterexample :
    ((run (mkCtx ⟨0, 0⟩ {} none none none)
        [Event.socket ⟨0, 1000⟩,
         Event.connect ⟨1, 0⟩ "127.0.0.1" "10.0.0.1",
         Event.finish ⟨2, 0⟩,
         Event.secureConnect ⟨3, 0⟩,
         Event.timeout ⟨4, 0⟩]).2.map
      fun em => em.record.timing.durationSend) = [some (-1000)] ∧
    ((-1000 : ℚ) < 0) := by
  constructor
  · simp [run, step, mkCtx, ignoreRequest, onTimeout, triggerMetrics,
      getTimingMetrics, orT, getDurationInMs]
    norm_num
  · norm_num

/-- C4 amended: provided no TLS-handshake completion signal fires after
a request-finished signal (the natural causal order; without this
proviso the counterexample applies), every reported `durationSend` is a
non-negative number or unknown; in particular the TCP-connect handler
clears the request-sent timestamp, and with a cleared sent timestamp the
reported `durationSend` is unknown. -/
theorem durationSend_nonneg_amended (t0 : HrTime) (opts : HttpOptions)
    (m : Option String) (ua : Option UAVal) (cb : Option JsFun)
    (l : List Event) (hmono : TimesMono l)
    (hsc : noSCAfterFinish l = true) :
    (∀ em ∈ (run (mkCtx t0 opts m ua cb) l).2,
      em.record.timing.durationSend = none ∨
      ∃ q, em.record.timing.durationSend = some q ∧ 0 ≤ q) ∧
    (∀ s : Ctx, ∀ t : HrTime, ∀ la ra : String,
      s.observersAttached = true → s.socketSeen = true →
      (step s (.connect t la ra)).1.timings.sentRequestAt = none) ∧
    (∀ tgs : Timings, tgs.sentRequestAt = none →
      (getTimingMetrics tgs).durationSend = none) := by
  refine ⟨?_, ?_, ?_⟩
  · apply run_dsend_nonneg l _ hmono hsc
    refine ⟨?_, ?_, ?_⟩ <;> intro x hx <;> simp [mkCtx] at hx
  · intro s t la ra ha hs
    simp [step, ha, hs]
  · intro tgs h
    cases horT : orT tgs.tlsHandshakeAt tgs.tcpConnectionAt <;>
      simp [getTimingMetrics, h, horT, getDurationInMs]

theorem durationSend_nonneg_amended_witness :
    TimesMono [Event.socket ⟨0, 0⟩, Event.connect ⟨1, 0⟩ "a" "b",
      Event.finish ⟨2, 0⟩, Event.timeout ⟨3, 0⟩] ∧
    noSCAfterFinish [Event.socket ⟨0, 0⟩, Event.connect ⟨1, 0⟩ "a" "b",
      Event.finish ⟨2, 0⟩, Event.timeout ⟨3, 0⟩] = true ∧
    ((∀ em ∈ (run (mkCtx ⟨0, 0⟩ {} none none none)
        [Event.socket ⟨0, 0⟩, Event.connect ⟨1, 0⟩ "a" "b",
         Event.finish ⟨2, 0⟩, Event.timeout ⟨3, 0⟩]).2,
      em.record.timing.durationSend = none ∨
      ∃ q, em.record.timing.durationSend = some q ∧ 0 ≤ q) ∧
    (∀ s : Ctx, ∀ t : HrTime, ∀ la ra : String,
      s.observersAttached = true → s.socketSeen = true →
      (step s (.connect t la ra)).1.timings.sentRequestAt = none) ∧
    (∀ tgs : Timings, tgs.sentRequestAt = none →
      (getTimingMetrics tgs).durationSend = none)) :=
  ⟨by decide, by decide,
   durationSend_nonneg_amended ⟨0, 0⟩ {} none none none _
     (by decide) (by decide)⟩

/-! ## Claim C2: safety-net reporting for an unconsumed response -/

/-- C2 counterexample: response headers arrive (first socket byte at
second 1), the body is never consumed, and the safety net fires at
second 300; the source's timer callback goes through `onEnd`, which
records `endAt`, so the reported `durationReceive` is `299000` ms — not
"unknown" as the claim states. -/
theorem safety_net_durationReceive_counterexample :
    ((run (mkCtx ⟨0, 0⟩ {} none none none)
        [Event.socket ⟨0, 0⟩, Event.socketData ⟨1, 0⟩,
         Event.response ⟨1, 500000000⟩ ⟨200, "OK", none, none, none, none⟩,
         Event.safetyNet ⟨300, 0⟩]).2.map
      fun em => em.record.timing.durationReceive) = [some 299000] ∧
    some (299000 : ℚ) ≠ (none : Option ℚ) := by
  constructor
  · simp [run, step, mkCtx, ignoreRequest, onResponse, onEnd,
      triggerMetrics, getTimingMetrics, orT, getDurationInMs]
    norm_num
  · simp

/-- C2 amended: for a request whose response headers arrive but whose
body is never consumed (no end event), after the safety-net window
elapses the callback fires exactly once with the partial metrics
accumulated so far (e.g. the response status); `durationReceive` spans
the first received byte to the safety-net firing instant — it is
"unknown" only when no response byte was ever observed. -/
theorem safety_net_partial_metrics_amended (t0 : HrTime)
    (opts : HttpOptions) (m : Option String) (cb : Option JsFun)
    (r : RespInfo) (ta tb tc td : HrTime) :
    (((run (mkCtx t0 opts m none cb)
        [Event.socket ta, Event.socketData tb, Event.response tc r,
         Event.safetyNet td]).2.map
      fun em =>
        (em.record.timing.durationReceive, em.record.resp.responseCode))
      = [(getDurationInMs (some tb) (some td), some r.statusCode)]) ∧
    (((run (mkCtx t0 opts m none cb)
        [Event.socket ta, Event.response tc r, Event.safetyNet td]).2.map
      fun em => em.record.timing.durationReceive) = [none]) := by
  constructor
  · simp [run, step, mkCtx, ignoreRequest, onResponse, onEnd,
      triggerMetrics, getTimingMetrics, getResponseMetrics]
  · simp [run, step, mkCtx, ignoreRequest, onResponse, onEnd,
      triggerMetrics, getTimingMetrics, getResponseMetrics, getDurationInMs]

/-! ## Claim C3: `responseBodySize` seeding and chunk accumulation -/

theorem run_noncounting_end (chunks : List (HrTime × Nat)) (s : Ctx)
    (v : Int) (ha : s.observersAttached = true)
    (hr : s.response.isSome = true) (hcf : s.countingChunks = false)
    (hsz : s.responseSize = some v) (hmt : s.metricsTriggered = false)
    (te : HrTime) :
    ((run s ((chunks.map fun c => Event.respData c.1 c.2) ++
        [Event.respEnd te])).2.map
      fun em => em.record.extra.responseBodySize) = [some v] := by
  induction chunks generalizing s with
  | nil =>
    simp [run, step, ha, hr, hmt, onEnd, triggerMetrics, hsz]
  | cons c cs ih =>
    have hstep : step s (Event.respData c.1 c.2) = (s, []) := by
      simp [step, ha, hcf]
    simp only [List.map_cons, List.cons_append, run, hstep]
    simpa using ih s ha hr hcf hsz hmt

theorem run_counting_end (chunks : List (HrTime × Nat)) (s : Ctx)
    (a : Int) (ha : s.observersAttached = true)
    (hr : s.response.isSome = true) (hc : s.countingChunks = true)
    (hsz : s.responseSize = some a) (hmt : s.metricsTriggered = false)
    (te : HrTime) :
    ((run s ((chunks.map fun c => Event.respData c.1 c.2) ++
        [Event.respEnd te])).2.map
      fun em => em.record.extra.responseBodySize) =
      [some (a + (chunks.map fun c => (c.2 : Int)).sum)] := by
  induction chunks generalizing s a with
  | nil =>
    simp [run, step, ha, hr, hmt, onEnd, triggerMetrics, hsz]
  | cons c cs ih =>
    have hstep : step s (Event.respData c.1 c.2) =
        ({ s with responseSize := some (a + (c.2 : Int)) }, []) := by
      simp [step, ha, hr, hc, hsz]
    simp only [List.map_cons, List.cons_append, run, hstep]
    have := ih { s with responseSize := some (a + (c.2 : Int)) }
      (a + (c.2 : Int)) (by simpa using ha) (by simpa using hr)
      (by simpa using hc) (by simp) (by simpa using hmt)
    simpa [add_assoc] using this

/-- C3 counterexample: a `content-length` header of `"-5"` parses to
`-5` under `parseInt`, so the reported `responseBodySize` is `-5`:
neither the header value parsed as a non-negative integer nor the sum of
the streamed chunk lengths (here `3`), refuting the claim. -/
theorem responseBodySize_counterexample :
    ((run (mkCtx ⟨0, 0⟩ {} none none none)
        [Event.response ⟨1, 0⟩ ⟨200, "OK", some "-5", none, none, none⟩,
         Event.respData ⟨2, 0⟩ 3,
         Event.respEnd ⟨3, 0⟩]).2.map
      fun em => em.record.extra.responseBodySize) = [some (-5)] ∧
    ¬ (0 : Int) ≤ -5 ∧ (-5 : Int) ≠ 3 :=
  ⟨by decide, by decide, by decide⟩

/-- C3 amended: when the size header parses under JS `parseInt`
semantics (optional sign then leading digits — for a plain digit string
this is its non-negative value), the reported `responseBodySize` is
exactly the parsed value regardless of how many bytes are streamed; when
the header is absent or `parseInt` yields `NaN`, it is the sum of the
streamed chunk lengths. -/
theorem responseBodySize_amended (t0 : HrTime) (opts : HttpOptions)
    (m : Option String) (cb : Option JsFun) (tr : HrTime) (r : RespInfo)
    (chunks : List (HrTime × Nat)) (te : HrTime) :
    (∀ cl v, r.contentLength = some cl → parseIntJS cl = some v →
      ((run (mkCtx t0 opts m none cb)
          (Event.response tr r ::
            ((chunks.map fun c => Event.respData c.1 c.2) ++
              [Event.respEnd te]))).2.map
        fun em => em.record.extra.responseBodySize) = [some v]) ∧
    ((r.contentLength = none ∨
        ∃ cl, r.contentLength = some cl ∧ parseIntJS cl = none) →
      ((run (mkCtx t0 opts m none cb)
          (Event.response tr r ::
            ((chunks.map fun c => Event.respData c.1 c.2) ++
              [Event.respEnd te]))).2.map
        fun em => em.record.extra.responseBodySize) =
        [some ((chunks.map fun c => (c.2 : Int)).sum)]) := by
  have hatt : (mkCtx t0 opts m none cb).observersAttached = true := rfl
  have hstep : step (mkCtx t0 opts m none cb) (Event.response tr r) =
      (onResponse (mkCtx t0 opts m none cb) r, []) := by
    simp [step, hatt]
  constructor
  · intro cl v hcl hv
    simp only [run, hstep]
    have h1 := run_noncounting_end chunks
      (onResponse (mkCtx t0 opts m none cb) r) v
      (by simp [onResponse, hatt]) (by simp [onResponse])
      (by simp [onResponse, hcl, hv]) (by simp [onResponse, hcl, hv])
      (by simp [onResponse, mkCtx]) te
    simpa using h1
  · intro hna
    have hseed : (onResponse (mkCtx t0 opts m none cb) r).responseSize
          = some 0 ∧
        (onResponse (mkCtx t0 opts m none cb) r).countingChunks = true := by
      rcases hna with hcl | ⟨cl, hcl, hv⟩
      · constructor <;> simp [onResponse, hcl]
      · constructor <;> simp [onResponse, hcl, hv]
    simp only [run, hstep]
    have h1 := run_counting_end chunks
      (onResponse (mkCtx t0 opts m none cb) r) 0
      (by simp [onResponse, hatt]) (by simp [onResponse])
      hseed.2 hseed.1 (by simp [onResponse, mkCtx]) te
    simpa using h1

theorem responseBodySize_amended_witness :
    (⟨200, "OK", some "1024", none, none, none⟩ : RespInfo).contentLength
      = some "1024" ∧
    parseIntJS "1024" = some 1024 ∧
    ((run (mkCtx ⟨0, 0⟩ {} none none none)
        (Event.response ⟨1, 0⟩ ⟨200, "OK", some "1024", none, none, none⟩ ::
          (([(⟨2, 0⟩, 3)].map fun c => Event.respData c.1 c.2) ++
            [Event.respEnd ⟨3, 0⟩]))).2.map
      fun em => em.record.extra.responseBodySize) = [some 1024] :=
  ⟨rfl, by decide,
   (responseBodySize_amended ⟨0, 0⟩ {} none none ⟨1, 0⟩
      ⟨200, "OK", some "1024", none, none, none⟩ [(⟨2, 0⟩, 3)] ⟨3, 0⟩).1
     "1024" 1024 rfl (by decide)⟩

/-! ## Claim C7: self-exclusion of the sink's own requests -/

/-- The request object returned by the underlying `http/https.request`
function, restricted to what the instrumentation reads from it. -/
structure RequestHandle where
  method : Option String := none
  userAgent : Option UAVal := none
  deriving DecidableEq, Repr

/-- `getRequest()` from the source: invoke the original request
function, and attach observers only when `ignoreRequest()` is false; the
real request handle is returned either way (`mkCtx` folds the
constructor, `withArgs`, `withMetricsCallback` and the conditional
`onRequest` into the produced context). -/
def getRequest {α : Type} (requestFn : α → RequestHandle) (input : α)
    (t0 : HrTime) (opts : HttpOptions) (cb : Option JsFun) :
    Ctx × RequestHandle :=
  let req := requestFn input
  (mkCtx t0 opts req.method req.userAgent cb, req)

/-- C7: For every outgoing request whose headers identify it as
generated by the metrics sink itself (its `User-Agent` equals the sink's
distinguishing constant), no lifecycle observers are attached and the
metrics callback is never invoked for that request — no event sequence
produces an emission or even changes the context — while the request
handle itself is still created and returned unmodified. -/
theorem self_request_ignored {α : Type} (requestFn : α → RequestHandle)
    (input : α) (t0 : HrTime) (opts : HttpOptions) (cb : Option JsFun)
    (l : List Event)
    (hua : (requestFn input).userAgent = some (.str USER_AGENT)) :
    (getRequest requestFn input t0 opts cb).2 = requestFn input ∧
    (getRequest requestFn input t0 opts cb).1.observersAttached = false ∧
    (run (getRequest requestFn input t0 opts cb).1 l).2 = [] ∧
    (run (getRequest requestFn input t0 opts cb).1 l).1 =
      (getRequest requestFn input t0 opts cb).1 := by
  have hatt : (getRequest requestFn input t0 opts cb).1.observersAttached
      = false := by
    simp [getRequest, mkCtx, hua, ignoreRequest, USER_AGENT]
  refine ⟨rfl, hatt, ?_, ?_⟩
  · rw [run_unattached _ _ hatt]
  · rw [run_unattached _ _ hatt]

theorem self_request_ignored_witness :
    ((fun _ : Unit =>
        ({ method := some "POST",
           userAgent := some (.str USER_AGENT) } : RequestHandle)) ()).userAgent
      = some (.str USER_AGENT) ∧
    (run (getRequest
        (fun _ : Unit =>
          ({ method := some "POST",
             userAgent := some (.str USER_AGENT) } : RequestHandle)) ()
        ⟨0, 0⟩ {} none).1
      [Event.timeout ⟨1, 0⟩]).2 = [] :=
  ⟨rfl,
   (self_request_ignored
      (fun _ : Unit =>
        ({ method := some "POST",
           userAgent := some (.str USER_AGENT) } : RequestHandle)) ()
      ⟨0, 0⟩ {} none [Event.timeout ⟨1, 0⟩] rfl).2.2.1⟩

/-! ## Claim C8: URL round-trip in the request metrics -/

theorem append_ne_empty_left (a b : String) (h : a ≠ "") : a ++ b ≠ "" := by
  intro hc
  apply h
  have hd : a.data ++ b.data = ([] : List Char) := congrArg String.data hc
  have ha2 : a.data = [] := (List.append_eq_nil.mp hd).1
  cases a with
  | mk d =>
    have hd2 : d = [] := ha2
    subst hd2
    rfl

/-- C8: For a request given as a URL string, the `url` field of the
output metrics reconstructs the same scheme, host, port and path as the
input, with default ports omitted.  For any parsed http or https URL
with an ordinary (non-bracketed, non-empty) hostname and a non-empty
path: the scheme, hostname and path round-trip verbatim; with no
explicit port the protocol's default (80 or 443) is reported and left
out of the reconstructed URL; with an explicit non-zero, non-default
decimal port that port is reported and preserved as a `":port"` segment
in the URL.  On the concrete `https://example.com/api` the URL is
reconstructed verbatim and contains no `":443"`. -/
theorem url_roundtrip (u : URLRec) (m : Option String)
    (hproto : u.protocol = "http:" ∨ u.protocol = "https:")
    (hhost : u.hostname ≠ "")
    (hbr : startsWithL u.hostname.data "[".data = false)
    (hpath : u.pathname ≠ "") :
    (getRequestMetrics (urlToOptions u) m).protocol = u.protocol ∧
    (getRequestMetrics (urlToOptions u) m).host = u.hostname ∧
    (getRequestMetrics (urlToOptions u) m).path = u.pathname ++ u.search ∧
    (u.port = "" →
      (getRequestMetrics (urlToOptions u) m).port =
        some (if u.protocol = "http:" then 80 else 443) ∧
      (getRequestMetrics (urlToOptions u) m).url =
        u.protocol ++ "//" ++ u.hostname ++ (u.pathname ++ u.search)) ∧
    (∀ n : Nat, u.port ≠ "" → u.port.data.all Char.isDigit = true →
      digitsToNat u.port.data = n → n ≠ 0 →
      ¬ (n = 80 ∧ u.protocol = "http:") →
      ¬ (n = 443 ∧ u.protocol = "https:") →
      (getRequestMetrics (urlToOptions u) m).port = some (n : Int) ∧
      (getRequestMetrics (urlToOptions u) m).url =
        u.protocol ++ "//" ++ u.hostname ++ (":" ++ toString (n : Int)) ++
          (u.pathname ++ u.search)) ∧
    (getRequestMetrics (urlToOptions
        ⟨"https:", "example.com", "", "/api", "", "",
         "https://example.com/api", "", ""⟩) (some "GET")).url
      = "https://example.com/api" ∧
    containsL (getRequestMetrics (urlToOptions
        ⟨"https:", "example.com", "", "/api", "", "",
         "https://example.com/api", "", ""⟩) (some "GET")).url.data
      ":443".data = false := by
  have hne : u.pathname ++ u.search ≠ "" :=
    append_ne_empty_left _ _ hpath
  have hpne : u.protocol ≠ "" := by
    rcases hproto with hp | hp <;> simp [hp]
  have hO1 : (urlToOptions u).protocol = some u.protocol := by
    simp [urlToOptions, apply_ite HttpOptions.protocol, ite_self]
  have hO2 : (urlToOptions u).hostname = some u.hostname := by
    simp [urlToOptions, hbr, apply_ite HttpOptions.hostname, ite_self]
  have hO3 : (urlToOptions u).host = none := by
    simp [urlToOptions, apply_ite HttpOptions.host, ite_self]
  have hO4 : (urlToOptions u).defaultPort = none := by
    simp [urlToOptions, apply_ite HttpOptions.defaultPort, ite_self]
  have hO5 : (urlToOptions u).path = some (u.pathname ++ u.search) := by
    simp [urlToOptions, apply_ite HttpOptions.path, ite_self]
  refine ⟨?_, ?_, ?_, ?_, ?_, by decide, by decide⟩
  · simp [getRequestMetrics, hO1, strOr, hpne]
  · simp [getRequestMetrics, hO2, hO3, strOr, hhost]
  · simp [getRequestMetrics, hO5, strOr, hne]
  · intro h0
    have hOp : (urlToOptions u).port = none := by
      simp [urlToOptions, h0, apply_ite HttpOptions.port, ite_self]
    rcases hproto with hp | hp <;>
      refine ⟨?_, ?_⟩ <;>
      simp [getRequestMetrics, hO1, hO2, hO3, hO4, hO5, hOp, strOr,
        strTruthy, jsValOr, jsValTruthy, jsNumToString, hp, hpne, hhost, hne]
  · intro n h0 hdig hval hn0 h80 h443
    have hOp : (urlToOptions u).port = some (jsNumberOfPort u.port) := by
      simp [urlToOptions, h0, apply_ite HttpOptions.port, ite_self]
    have hi : (n : Int) ≠ 0 := by exact_mod_cast hn0
    have hjs : jsNumberOfPort u.port = JsVal.num (n : Int) := by
      simp [jsNumberOfPort, h0, hdig, hval]
    rcases hproto with hp | hp
    · have hn80 : ¬ ((n : Int) = 80) := by
        intro hc
        exact h80 ⟨by exact_mod_cast hc, hp⟩
      refine ⟨?_, ?_⟩ <;>
        simp [getRequestMetrics, hO1, hO2, hO3, hO4, hO5, hOp, hjs, strOr,
          strTruthy, jsValOr, jsValTruthy, jsNumToString, hp, hpne, hhost,
          hne, hi, hn80]
    · have hn443 : ¬ ((n : Int) = 443) := by
        intro hc
        exact h443 ⟨by exact_mod_cast hc, hp⟩
      refine ⟨?_, ?_⟩ <;>
        simp [getRequestMetrics, hO1, hO2, hO3, hO4, hO5, hOp, hjs, strOr,
          strTruthy, jsValOr, jsValTruthy, jsNumToString, hp, hpne, hhost,
          hne, hi, hn443]

theorem url_roundtrip_witness :
    ((⟨"https:", "example.com", "", "/api", "", "",
       "https://example.com/api", "", ""⟩ : URLRec).protocol = "http:" ∨
     (⟨"https:", "example.com", "", "/api", "", "",
       "https://example.com/api", "", ""⟩ : URLRec).protocol = "https:") ∧
    (⟨"https:", "example.com", "", "/api", "", "",
      "https://example.com/api", "", ""⟩ : URLRec).hostname ≠ "" ∧
    startsWithL (⟨"https:", "example.com", "", "/api", "", "",
      "https://example.com/api", "", ""⟩ : URLRec).hostname.data "[".data
      = false ∧
    (⟨"https:", "example.com", "", "/api", "", "",
      "https://example.com/api", "", ""⟩ : URLRec).pathname ≠ "" ∧
    (getRequestMetrics (urlToOptions
      ⟨"https:", "example.com", "", "/api", "", "",
       "https://example.com/api", "", ""⟩) (some "GET")).port = some 443 ∧
    (getRequestMetrics (urlToOptions
      ⟨"https:", "example.com", "", "/api", "", "",
       "https://example.com/api", "", ""⟩) (some "GET")).url
      = "https://example.com/api" ∧
    (getRequestMetrics (urlToOptions
      ⟨"http:", "example.com", "", "/api", "", "",
       "http://example.com/api", "", ""⟩) (some "GET")).port = some 80 ∧
    (getRequestMetrics (urlToOptions
      ⟨"http:", "example.com", "", "/api", "", "",
       "http://example.com/api", "", ""⟩) (some "GET")).url
      = "http://example.com/api" ∧
    (getRequestMetrics (urlToOptions
      ⟨"https:", "example.com", "8443", "/api", "", "",
       "https://example.com:8443/api", "", ""⟩) (some "GET")).port
      = some 8443 ∧
    (getRequestMetrics (urlToOptions
      ⟨"https:", "example.com", "8443", "/api", "", "",
       "https://example.com:8443/api", "", ""⟩) (some "GET")).url
      = "https://example.com:8443/api" :=
  ⟨Or.inr rfl, by decide, by decide, by decide,
   ((url_roundtrip
      ⟨"https:", "example.com", "", "/api", "", "",
       "https://example.com/api", "", ""⟩ (some "GET")
      (Or.inr rfl) (by decide) (by decide) (by decide)).2.2.2.1 rfl).1,
   ((url_roundtrip
      ⟨"https:", "example.com", "", "/api", "", "",
       "https://example.com/api", "", ""⟩ (some "GET")
      (Or.inr rfl) (by decide) (by decide) (by decide)).2.2.2.1 rfl).2,
   ((url_roundtrip
      ⟨"http:", "example.com", "", "/api", "", "",
       "http://example.com/api", "", ""⟩ (some "GET")
      (Or.inl rfl) (by decide) (by decide) (by decide)).2.2.2.1 rfl).1,
   ((url_roundtrip
      ⟨"http:", "example.com", "", "/api", "", "",
       "http://example.com/api", "", ""⟩ (some "GET")
      (Or.inl rfl) (by decide) (by decide) (by decide)).2.2.2.1 rfl).2,
   ((url_roundtrip
      ⟨"https:", "example.com", "8443", "/api", "", "",
       "https://example.com:8443/api", "", ""⟩ (some "GET")
      (Or.inr rfl) (by decide) (by decide) (by decide)).2.2.2.2.1 8443
      (by decide) (by decide) (by decide) (by decide) (by decide)
      (by decide)).1,
   ((url_roundtrip
      ⟨"https:", "example.com", "8443", "/api", "", "",
       "https://example.com:8443/api", "", ""⟩ (some "GET")
      (Or.inr rfl) (by decide) (by decide) (by decide)).2.2.2.2.1 8443
      (by decide) (by decide) (by decide) (by decide) (by decide)
      (by decide)).2⟩

/-! ## Claim C9: the duration calculator -/

/-- C9: The duration calculator, given two optional high-resolution
timestamps `a` (earlier) and `b` (later), returns unknown (`undefined`)
if either timestamp is unset, and otherwise returns the elapsed time
`b - a` expressed in fractional milliseconds (the nanosecond difference
divided by 10^6); as a pure function it has no side effects. -/
theorem duration_calculator_contract :
    (∀ b, getDurationInMs none b = none) ∧
    (∀ a, getDurationInMs a none = none) ∧
    (∀ x y, getDurationInMs (some x) (some y) =
      some (((y.toNanos - x.toNanos : Int) : ℚ) / 1000000)) := by
  refine ⟨fun b => ?_, fun a => ?_, fun x y => getDurationInMs_eq_toNanos x y⟩
  · cases b <;> rfl
  · cases a <;> rfl

/-! ## Claim C10: missing metrics callback -/

theorem step_callback (s : Ctx) (e : Event) :
    (step s e).1.metricsCallback = s.metricsCallback := by
  by_cases ha : s.observersAttached
  · cases e <;>
      simp [step, ha, onResponse, onEnd, onError, onTimeout, triggerMetrics] <;>
      (try split) <;> (try split) <;> simp_all
  · simp [step, ha]

theorem run_callback (s : Ctx) (l : List Event) :
    (run s l).1.metricsCallback = s.metricsCallback := by
  induction l generalizing s with
  | nil => simp [run]
  | cons e r ih => simp [run, ih, step_callback]

/-- C10: If no metrics callback is supplied when the per-request context
is configured, a no-op function is installed in its place
(`cb || (() => {})`), so the callback slot always holds a callable
function — at construction and after any event sequence — and invoking
it can never fail the way calling a missing (`undefined`) callback
would. -/
theorem missing_callback_noop :
    withMetricsCallback none = JsFun.noop ∧
    (∀ cb, ∃ g, callJsFun (some (withMetricsCallback cb)) = .ok g) ∧
    (∀ t0 opts m ua cb, ∀ l : List Event,
      (run (mkCtx t0 opts m ua cb) l).1.metricsCallback
        = some (withMetricsCallback cb)) ∧
    (∃ msg, callJsFun none = .error msg) := by
  refine ⟨rfl, fun cb => ⟨withMetricsCallback cb, rfl⟩, ?_, ⟨_, rfl⟩⟩
  intro t0 opts m ua cb l
  rw [run_callback]
  rfl

end NewRelicHttp
